import Mathlib

/-!
# Verification of the foodgram backend against its specification

Shallow embedding, in Lean 4, of the data model and operations of the
foodgram recipe-sharing backend (Django/DRF).  Each definition is
translated from a concrete function of the source tree
(`backend/recipes/models.py`, `backend/recipes/serializers.py`,
`backend/recipes/views.py`, `backend/recipes/filters.py`,
`backend/api/serializers.py`, `backend/api/views.py`,
`backend/users/views.py`); the theorems at the end of the file settle
the specification claims against these definitions.

Database tables are modelled as Lean lists of rows, HTTP status codes as
natural numbers, and fallible validation as `Except String`.
-/

namespace Foodgram

/-- Modelled from the spec: `foodgram/constants.py` is not part of the
source snapshot.  The spec only says cooking time is bounded by
`[MIN_COOKING_TIME, MAX_COOKING_TIME]`; both serializers hard-code the
lower bound 1 ("не менее 1 минуты"), so `MIN_COOKING_TIME = 1`. -/
def MIN_COOKING_TIME : Int := 1

/-- Modelled from the spec: upper bound of the cooking-time range; the
concrete number is absent from the snapshot.  Any value below the
`PositiveSmallIntegerField` cap 32767 behaves the same; 32000 is used. -/
def MAX_COOKING_TIME : Int := 32000

/-- Modelled from the spec: lower bound of the ingredient-amount range;
the serializer hard-codes 1 ("не менее 1"), so `MIN_AMOUNT = 1`. -/
def MIN_AMOUNT : Int := 1

/-- Modelled from the spec: upper bound of the ingredient-amount range;
the concrete number is absent from the snapshot, 32000 is used
(any value below the `PositiveSmallIntegerField` cap behaves the same). -/
def MAX_AMOUNT : Int := 32000

/-! ## Favorite / ShoppingCart membership toggling

`RecipeViewSet._add_remove_relation` in `backend/recipes/views.py`
(the `api/views.py` variant `_add_relation`/`_delete_relation` has the
same observable semantics: duplicate POST rejected by the serializer's
`validate`, DELETE of an absent row rejected on `deleted_count == 0`).
The `Favorite` and `ShoppingCart` tables are lists of `(user, recipe)`
pairs. -/

/-- POST branch of `_add_remove_relation`: if the `(user, recipe)` row
exists return 400 leaving the table unchanged, otherwise create the row
and return 201. -/
def addRelation (rels : List (Nat × Nat)) (u r : Nat) : Nat × List (Nat × Nat) :=
  if (u, r) ∈ rels then (400, rels)
  else (201, rels ++ [(u, r)])

/-- DELETE branch of `_add_remove_relation`: if no `(user, recipe)` row
exists return 400, otherwise delete the matching rows and return 204. -/
def removeRelation (rels : List (Nat × Nat)) (u r : Nat) : Nat × List (Nat × Nat) :=
  if (u, r) ∈ rels then (204, rels.filter (fun p => p ≠ (u, r)))
  else (400, rels)

/-! ## Follow graph mutation

`UserViewSet.subscribe` in `backend/users/views.py` (the
`api/views.py` + `FollowCreateSerializer.validate` variant has the same
semantics).  The `Follow` table is a list of `(user, author)` pairs. -/

/-- POST branch of `subscribe`: reject a self-edge with 400, reject an
existing edge with 400, otherwise create the edge and return 201. -/
def subscribe (follows : List (Nat × Nat)) (u a : Nat) : Nat × List (Nat × Nat) :=
  if u = a then (400, follows)
  else if (u, a) ∈ follows then (400, follows)
  else (201, follows ++ [(u, a)])

/-- DELETE branch of `subscribe` (`unsubscribe`): reject with 400 when
the edge is absent, otherwise delete it and return 204. -/
def unsubscribe (follows : List (Nat × Nat)) (u a : Nat) : Nat × List (Nat × Nat) :=
  if (u, a) ∈ follows then (204, follows.filter (fun p => p ≠ (u, a)))
  else (400, follows)

/-! ## Shopping-list download

`RecipeViewSet.download_shopping_cart`, present verbatim in both
`backend/recipes/views.py` and `backend/api/views.py`.  The Django query

    ShoppingCart.objects.filter(user=request.user).values(
        'recipe__recipe_ingredients__ingredient__name',
        'recipe__recipe_ingredients__ingredient__measurement_unit'
    ).annotate(total_amount=Sum('recipe__recipe_ingredients__amount'))

joins the user's cart rows with the `RecipeIngredient` rows of each cart
recipe and the referenced `Ingredient`, groups the joined rows by
(ingredient name, measurement unit), and sums the amounts per group. -/

/-- A row of the `Ingredient` table. -/
structure Ingredient where
  id : Nat
  name : String
  measurement_unit : String
deriving DecidableEq

/-- A row of the `RecipeIngredient` join table (amount is a bounded
positive integer in the schema; `Int` here, validated elsewhere). -/
structure RecipeIngredient where
  recipe : Nat
  ingredient : Nat
  amount : Int
deriving DecidableEq

/-- Grouping key of the download query: (name, measurement_unit). -/
def rowKey (row : String × String × Int) : String × String := (row.1, row.2.1)

/-- The joined rows underlying the download query for user `u`: one
`(name, unit, amount)` triple per `RecipeIngredient` row of each recipe
in `u`'s cart (the FK join drops a row only if its `Ingredient` row is
missing, which the schema's foreign keys rule out). -/
def cartRows (u : Nat) (cart : List (Nat × Nat)) (ris : List RecipeIngredient)
    (ings : List Ingredient) : List (String × String × Int) :=
  ((cart.filter (fun c => c.1 = u)).map (fun c =>
    (ris.filter (fun ri => ri.recipe = c.2)).filterMap (fun ri =>
      (ings.find? (fun i => i.id = ri.ingredient)).map
        (fun i => (i.name, i.measurement_unit, ri.amount))))).flatten

/-- Total amount of group `k` over the joined rows (`Sum` aggregate). -/
def sumAmounts (k : String × String) (rows : List (String × String × Int)) : Int :=
  ((rows.filter (fun row => rowKey row = k)).map (fun row => row.2.2)).sum

/-- `GROUP BY (name, unit)` with `Sum(amount)`: one output row per
distinct key, carrying the summed amount of its group. -/
def aggregate (rows : List (String × String × Int)) : List ((String × String) × Int) :=
  ((rows.map rowKey).dedup).map (fun k => (k, sumAmounts k rows))

/-- One output line of the download: `f"{name} ({unit}) — {amount}"`. -/
def shoppingLine (p : (String × String) × Int) : String :=
  p.1.1 ++ " (" ++ p.1.2 ++ ") — " ++ toString p.2

/-- `download_shopping_cart` of `backend/recipes/views.py`: build
`shopping_list` starting from the header, append one line per aggregated
ingredient, join with newlines, and answer 200 with the joined body. -/
def download_shopping_cart_recipes_views (u : Nat) (cart : List (Nat × Nat))
    (ris : List RecipeIngredient) (ings : List Ingredient) : Nat × String :=
  let ingredients := aggregate (cartRows u cart ris ings)
  let shopping_list := "Список покупок:\n" :: ingredients.map shoppingLine
  (200, String.intercalate "\n" shopping_list)

/-- `download_shopping_cart` of `backend/api/views.py`: same query over
the same tables, same header, same line format, same 200 response. -/
def download_shopping_cart_api_views (u : Nat) (cart : List (Nat × Nat))
    (ris : List RecipeIngredient) (ings : List Ingredient) : Nat × String :=
  let ingredients := aggregate (cartRows u cart ris ings)
  let shopping_list := "Список покупок:\n" :: ingredients.map shoppingLine
  (200, String.intercalate "\n" shopping_list)

/-! ## Short-code assignment

`Recipe.save` in `backend/recipes/models.py`: on first save (empty
`short_code`) the method loops, drawing `secrets.token_urlsafe(4)[:6]`
(always a 6-character URL-safe token) until the draw collides with no
existing `Recipe.short_code`; a recipe whose `short_code` is already set
is saved unchanged.  The random draw sequence is modelled as an explicit
list of candidate tokens consumed in order. -/

/-- A row of the `Recipe` table, reduced to the fields `Recipe.save`
reads and writes. -/
structure RecipeRow where
  id : Nat
  short_code : String
deriving DecidableEq

/-- The retry loop of `Recipe.save`: return the first draw that is not
among the existing codes; `none` when every supplied draw collides (the
code has no retry cap, so the loop would still be running). -/
def genCode (existing : List String) : List String → Option String
  | [] => none
  | d :: rest => if d ∈ existing then genCode existing rest else some d

/-- `super().save()`: overwrite the row with the same primary key, or
insert the row when its key is new. -/
def upsertRow (db : List RecipeRow) (r : RecipeRow) : List RecipeRow :=
  if db.any (fun row => row.id = r.id) then
    db.map (fun row => if row.id = r.id then r else row)
  else db ++ [r]

/-- `Recipe.save`: when `short_code` is falsy (empty), run the retry
loop against the codes already in the table, store the fresh code and
save; otherwise save with the code untouched. -/
def recipeSave (db : List RecipeRow) (r : RecipeRow) (draws : List String) :
    Option (List RecipeRow) :=
  if r.short_code = "" then
    match genCode (db.map (fun row => row.short_code)) draws with
    | some c => some (upsertRow db { r with short_code := c })
    | none => none
  else some (upsertRow db r)

/-- Primary-key lookup in the `Recipe` table. -/
def findRow (db : List RecipeRow) (rid : Nat) : Option RecipeRow :=
  db.find? (fun row => row.id = rid)

/-- The invariant of claim C2: every saved recipe's `short_code` is
non-empty and no two recipes share one. -/
def ShortCodeInv (db : List RecipeRow) : Prop :=
  (∀ row ∈ db, row.short_code ≠ "") ∧
  (db.map (fun row => row.short_code)).Nodup

/-! ## Recipe write validation

`RecipeWriteSerializer` exists twice: in
`backend/recipes/serializers.py` (ingredients as a plain
`ListField(child=DictField())`, per-item checks hand-written) and in
`backend/api/serializers.py` (ingredients as nested
`RecipeIngredientWriteSerializer`s, whose `amount` field inherits the
model's `MinValueValidator`/`MaxValueValidator` through DRF's
model-field mapping).  Rejections are `Except.error`; DRF runs all
validation before any row is written, so an error means nothing was
created. -/

/-- One entry of a write request's `ingredients` list:
`{"id": ..., "amount": ...}`. -/
structure IngredientInput where
  id : Nat
  amount : Int
deriving DecidableEq

/-- `True` on `Except.error`, the serializer-rejection outcome. -/
def isError {α : Type} : Except String α → Bool
  | .error _ => true
  | .ok _ => false

/-- DRF's validation sequencing: a failed stage short-circuits the rest
of the pipeline with its error. -/
def andThen {α β : Type} (e : Except String α) (f : α → Except String β) :
    Except String β :=
  match e with
  | .error msg => .error msg
  | .ok a => f a

/-- The write database: the `Ingredient` and `Tag` rows validation reads
and the rows a successful create/update writes. -/
structure WriteDb where
  ingredientIds : List Nat
  tagIds : List Nat
  recipes : List Nat
  recipeIngredients : List RecipeIngredient
  recipeTags : List (Nat × Nat)
deriving DecidableEq

namespace recipes_serializers

/-- The per-item loop of `validate_ingredients`
(`backend/recipes/serializers.py`): each item's id must reference an
existing `Ingredient` row, and `item.get('amount', 0) < 1` is rejected.
No check against any upper bound occurs here. -/
def check_items (existing : List Nat) : List IngredientInput → Except String Unit
  | [] => .ok ()
  | item :: rest =>
    if item.id ∉ existing then
      .error ("Ингредиент с id " ++ toString item.id ++ " не существует.")
    else if item.amount < 1 then
      .error "Количество ингредиента должно быть не менее 1."
    else check_items existing rest

/-- `validate_ingredients` of `backend/recipes/serializers.py`: reject
an empty list, duplicate ids, and then run the per-item loop. -/
def validate_ingredients (existing : List Nat) (value : List IngredientInput) :
    Except String (List IngredientInput) :=
  if value.isEmpty then .error "Должен быть хотя бы один ингредиент."
  else if ¬ (value.map (fun item => item.id)).Nodup then
    .error "Ингредиенты не должны повторяться."
  else
    andThen (check_items existing value) (fun _ => .ok value)

/-- `validate_tags` of `backend/recipes/serializers.py`: reject an empty
list and duplicates. -/
def validate_tags (value : List Nat) : Except String (List Nat) :=
  if value.isEmpty then .error "Должен быть хотя бы один тег."
  else if ¬ value.Nodup then .error "Теги не должны повторяться."
  else .ok value

/-- The declared `ingredients` field (`ListField(..., allow_empty=False)`):
field-level rejection of the empty list. -/
def ingredients_field (value : List IngredientInput) :
    Except String (List IngredientInput) :=
  if value.isEmpty then .error "Этот список не может быть пустым."
  else .ok value

/-- The declared `tags` field (`PrimaryKeyRelatedField(queryset=Tag...,
many=True, allow_empty=False)`): empty list rejected, every id must
resolve to an existing `Tag` row. -/
def tags_field (dbTags : List Nat) (ids : List Nat) : Except String (List Nat) :=
  if ids.isEmpty then .error "Этот список не может быть пустым."
  else if ids.any (fun t => t ∉ dbTags) then
    .error "Недопустимый первичный ключ."
  else .ok ids

/-- The generated `cooking_time` field: DRF maps the model field's
`MinValueValidator(MIN_COOKING_TIME)` and
`MaxValueValidator(MAX_COOKING_TIME)` (`Recipe.cooking_time` in
`backend/recipes/models.py`) onto the serializer's integer field. -/
def cooking_time_field (v : Int) : Except String Int :=
  if v < MIN_COOKING_TIME then
    .error "Время приготовления должно быть не менее 1 минуты."
  else if v > MAX_COOKING_TIME then
    .error "Время приготовления не может превышать максимум минут."
  else .ok v

/-- `validate_cooking_time` of `backend/recipes/serializers.py`: only
the hand-written `value < 1` check. -/
def validate_cooking_time (v : Int) : Except String Int :=
  if v < 1 then .error "Время приготовления должно быть не менее 1 минуты."
  else .ok v

/-- The full cooking-time pipeline: field validators, then
`validate_cooking_time`. -/
def run_cooking_time (v : Int) : Except String Int :=
  andThen (cooking_time_field v) (fun v2 => validate_cooking_time v2)

/-- `validate` of `backend/recipes/serializers.py`: a PATCH payload must
still carry both `ingredients` and `tags`. -/
def validate_presence (isPatch hasIngredients hasTags : Bool) :
    Except String Unit :=
  if isPatch then
    if ¬ hasIngredients then .error "Поле ingredients обязательно."
    else if ¬ hasTags then .error "Поле tags обязательно."
    else .ok ()
  else .ok ()

/-- `create` of `backend/recipes/serializers.py`: insert the `Recipe`
row, set its tags, and insert one `RecipeIngredient` row per entry. -/
def create_recipe (db : WriteDb) (rid : Nat) (ings : List IngredientInput)
    (tags : List Nat) : WriteDb :=
  { db with
    recipes := db.recipes ++ [rid],
    recipeTags := db.recipeTags ++ tags.map (fun t => (rid, t)),
    recipeIngredients := db.recipeIngredients ++
      ings.map (fun i => ⟨rid, i.id, i.amount⟩) }

/-- The create pipeline of the recipes write serializer: field-level
validation in declaration order, the hand-written validators, then (and
only then) the row insertions of `create`. -/
def run_create (db : WriteDb) (rid : Nat) (ingredients : List IngredientInput)
    (tags : List Nat) (cooking_time : Int) : Except String WriteDb :=
  andThen (ingredients_field ingredients) (fun ings1 =>
    andThen (validate_ingredients db.ingredientIds ings1) (fun ings2 =>
      andThen (tags_field db.tagIds tags) (fun tags1 =>
        andThen (validate_tags tags1) (fun tags2 =>
          andThen (run_cooking_time cooking_time) (fun _ =>
            .ok (create_recipe db rid ings2 tags2))))))

/-- `update` of `backend/recipes/serializers.py`: replace the recipe's
tag set (`instance.tags.set`), delete every existing `RecipeIngredient`
row of the recipe (`instance.recipe_ingredients.all().delete()`) and
insert one row per supplied entry. -/
def update_recipe (db : WriteDb) (rid : Nat) (ings : List IngredientInput)
    (tags : List Nat) : WriteDb :=
  { db with
    recipeTags := (db.recipeTags.filter (fun p => ¬ p.1 = rid)) ++
      tags.map (fun t => (rid, t)),
    recipeIngredients :=
      (db.recipeIngredients.filter (fun ri => ¬ ri.recipe = rid)) ++
      ings.map (fun i => ⟨rid, i.id, i.amount⟩) }

end recipes_serializers

namespace api_serializers

/-- The generated `amount` field of `RecipeIngredientWriteSerializer`
(`backend/api/serializers.py`): DRF maps the model's
`MinValueValidator(MIN_AMOUNT)` and `MaxValueValidator(MAX_AMOUNT)`
(`RecipeIngredient.amount` in `backend/recipes/models.py`) onto the
serializer field. -/
def amount_field (v : Int) : Except String Int :=
  if v < MIN_AMOUNT then .error "Количество должно быть не менее 1."
  else if v > MAX_AMOUNT then .error "Количество не может превышать максимум."
  else .ok v

/-- `validate` of the api `RecipeWriteSerializer`: empty ingredients,
duplicate ingredient ids, empty tags and duplicate tags are rejected. -/
def validate (ingredients : List IngredientInput) (tags : List Nat) :
    Except String Unit :=
  if ingredients.isEmpty then .error "Должен быть хотя бы один ингредиент."
  else if ¬ (ingredients.map (fun i => i.id)).Nodup then
    .error "Ингредиенты не должны повторяться."
  else if tags.isEmpty then .error "Должен быть хотя бы один тег."
  else if ¬ tags.Nodup then .error "Теги не должны повторяться."
  else .ok ()

end api_serializers

/-! ## Recipe filtering

`RecipeFilter` in `backend/recipes/filters.py`: the declared filters —
`author` (Meta exact match), `tags` (slug membership, union across
slugs), `is_favorited` and `is_in_shopping_cart` — are applied by
django-filter one after the other to the queryset, so their predicates
combine conjunctively.  django-filter skips a filter whose cleaned value
is empty (absent parameter or empty string), and the two membership
filter methods additionally return the queryset unchanged for an
anonymous requester. -/

/-- A recipe as the filterset sees it: id, author id, tag slugs. -/
structure FilterRecipe where
  id : Nat
  author : Nat
  tags : List String
deriving DecidableEq

/-- The filter-relevant query parameters; `none` is an absent
parameter. -/
structure FilterParams where
  author : Option Nat
  tags : List String
  is_favorited : Option String
  is_in_shopping_cart : Option String

/-- The Meta `author` filter: exact match on the author id. -/
def filter_author (qs : List FilterRecipe) : Option Nat → List FilterRecipe
  | none => qs
  | some a => qs.filter (fun r => r.author = a)

/-- `filter_tags`: an empty selection returns the queryset unchanged,
otherwise keep the recipes carrying at least one selected slug
(`tags__slug__in` followed by `distinct()`). -/
def filter_tags (qs : List FilterRecipe) (slugs : List String) :
    List FilterRecipe :=
  if slugs.isEmpty then qs
  else qs.filter (fun r => r.tags.any (fun s => s ∈ slugs))

/-- `filter_is_favorited`: a present, non-empty value restricts an
authenticated requester's queryset to the recipes among their
`Favorite` rows; an absent or empty value, or an anonymous requester,
leaves the queryset unchanged. -/
def filter_is_favorited (auth : Option Nat) (favs : List (Nat × Nat))
    (qs : List FilterRecipe) : Option String → List FilterRecipe
  | none => qs
  | some v =>
    if v = "" then qs
    else
      match auth with
      | some u => qs.filter (fun r => (u, r.id) ∈ favs)
      | none => qs

/-- `filter_is_in_shopping_cart`: the same shape over the
`ShoppingCart` rows. -/
def filter_is_in_shopping_cart (auth : Option Nat) (carts : List (Nat × Nat))
    (qs : List FilterRecipe) : Option String → List FilterRecipe
  | none => qs
  | some v =>
    if v = "" then qs
    else
      match auth with
      | some u => qs.filter (fun r => (u, r.id) ∈ carts)
      | none => qs

/-- The whole filterset: every declared filter applied in turn. -/
def recipeFilter (recipes : List FilterRecipe) (favs carts : List (Nat × Nat))
    (auth : Option Nat) (p : FilterParams) : List FilterRecipe :=
  filter_is_in_shopping_cart auth carts
    (filter_is_favorited auth favs
      (filter_tags (filter_author recipes p.author) p.tags)
      p.is_favorited)
    p.is_in_shopping_cart

/-- The author predicate of the conjunction. -/
def authorPred (pa : Option Nat) (r : FilterRecipe) : Prop :=
  match pa with
  | none => True
  | some a => r.author = a

/-- The tag predicate of the conjunction. -/
def tagsPred (slugs : List String) (r : FilterRecipe) : Prop :=
  slugs.isEmpty = true ∨ r.tags.any (fun s => s ∈ slugs) = true

/-- The favorited / in-cart predicate of the conjunction: vacuous for an
absent parameter or an anonymous requester. -/
def membershipPred (auth : Option Nat) (rows : List (Nat × Nat))
    (pv : Option String) (r : FilterRecipe) : Prop :=
  match pv, auth with
  | none, _ => True
  | some _, none => True
  | some v, some u => v = "" ∨ (u, r.id) ∈ rows

end Foodgram

namespace Foodgram

/-- Claim C5: POST on an absent membership row creates it with 201, a second
POST returns 400 unchanged, DELETE on an absent row returns 400, DELETE
after a POST removes the row with 204, after which POST succeeds again. -/
theorem favorite_shopping_cart_toggle (rels : List (Nat × Nat)) (u r : Nat)
    (habs : (u, r) ∉ rels) :
    addRelation rels u r = (201, rels ++ [(u, r)]) ∧
    addRelation (rels ++ [(u, r)]) u r = (400, rels ++ [(u, r)]) ∧
    removeRelation rels u r = (400, rels) ∧
    removeRelation (rels ++ [(u, r)]) u r = (204, rels) ∧
    addRelation rels u r = (201, rels ++ [(u, r)]) ∧
    (u, r) ∉ rels := by
  have hfilter : rels.filter (fun p => p ≠ (u, r)) = rels := by
    apply List.filter_eq_self.mpr
    intro p hp
    simp only [ne_eq, decide_eq_true_eq]
    intro hpe
    exact habs (hpe ▸ hp)
  refine ⟨?_, ?_, ?_, ?_, ?_, habs⟩
  · simp [addRelation, habs]
  · simp [addRelation]
  · simp [removeRelation, habs]
  · simp only [removeRelation, List.filter_append]
    rw [if_pos (by simp)]
    simp [hfilter]
    intro a b hmem ha hb
    exact habs (by simpa [ha, hb] using hmem)
  · simp [addRelation, habs]

/-- Witness for C5 at user 1, recipe 2, table `[(3, 4)]`. -/
theorem favorite_shopping_cart_toggle_witness :
    addRelation [(3, 4)] 1 2 = (201, [(3, 4), (1, 2)]) ∧
    addRelation [(3, 4), (1, 2)] 1 2 = (400, [(3, 4), (1, 2)]) ∧
    removeRelation [(3, 4)] 1 2 = (400, [(3, 4)]) ∧
    removeRelation [(3, 4), (1, 2)] 1 2 = (204, [(3, 4)]) ∧
    addRelation [(3, 4)] 1 2 = (201, [(3, 4), (1, 2)]) ∧
    (1, 2) ∉ [(3, 4)] :=
  favorite_shopping_cart_toggle [(3, 4)] 1 2 (by decide)

/-- Claim C7: subscribing to oneself is rejected with 400, subscribing when
the edge already exists is rejected with 400, unsubscribing when the
edge is absent is rejected with 400, and a subscribe under neither
condition appends exactly one directed edge and returns 201. -/
theorem subscribe_unsubscribe_rules (follows : List (Nat × Nat)) (u a : Nat) :
    subscribe follows u u = (400, follows) ∧
    ((u, a) ∈ follows → subscribe follows u a = (400, follows)) ∧
    ((u, a) ∉ follows → unsubscribe follows u a = (400, follows)) ∧
    (u ≠ a → (u, a) ∉ follows →
      subscribe follows u a = (201, follows ++ [(u, a)])) := by
  refine ⟨by simp [subscribe], ?_, ?_, ?_⟩
  · intro hmem
    by_cases hua : u = a
    · simp [subscribe, hua]
    · simp [subscribe, hua, hmem]
  · intro habs
    simp [unsubscribe, habs]
  · intro hua habs
    simp [subscribe, hua, habs]

/-- Witness for C7 at user 1, author 2, table `[(2, 1)]`. -/
theorem subscribe_unsubscribe_rules_witness :
    subscribe [(2, 1)] 1 1 = (400, [(2, 1)]) ∧
    subscribe [(2, 1)] 2 1 = (400, [(2, 1)]) ∧
    unsubscribe [(2, 1)] 1 2 = (400, [(2, 1)]) ∧
    subscribe [(2, 1)] 1 2 = (201, [(2, 1), (1, 2)]) := by
  have h := subscribe_unsubscribe_rules [(2, 1)] 1 2
  have h2 := subscribe_unsubscribe_rules [(2, 1)] 2 1
  exact ⟨h.1, h2.2.1 (by decide), h.2.2.1 (by decide),
    h.2.2.2 (by decide) (by decide)⟩

/-- The keys of the aggregated shopping list are the deduplicated keys
of the joined rows. -/
theorem aggregate_keys (rows : List (String × String × Int)) :
    (aggregate rows).map Prod.fst = (rows.map rowKey).dedup := by
  unfold aggregate
  rw [List.map_map]
  have hid : (Prod.fst ∘ fun k : String × String => (k, sumAmounts k rows)) = id := rfl
  rw [hid, List.map_id]

/-- Claim C1: the shopping-list download computes, for each
(ingredient name, measurement unit) pair occurring in any cart recipe of
the user, the sum of the per-recipe amounts across all cart recipes:
the aggregated result has pairwise-distinct keys, its key set is exactly
the set of keys occurring in the joined cart rows, each key's value is
the sum of the amounts of its group, and the response body is one
"name (unit) — total" line per pair after the header. -/
theorem shopping_list_download_aggregates (u : Nat) (cart : List (Nat × Nat))
    (ris : List RecipeIngredient) (ings : List Ingredient) :
    ((aggregate (cartRows u cart ris ings)).map Prod.fst).Nodup ∧
    (∀ k, k ∈ (aggregate (cartRows u cart ris ings)).map Prod.fst ↔
      ∃ row ∈ cartRows u cart ris ings, rowKey row = k) ∧
    (∀ k v, (k, v) ∈ aggregate (cartRows u cart ris ings) →
      v = sumAmounts k (cartRows u cart ris ings)) ∧
    (download_shopping_cart_recipes_views u cart ris ings).2 =
      String.intercalate "\n"
        ("Список покупок:\n" ::
          (aggregate (cartRows u cart ris ings)).map shoppingLine) := by
  refine ⟨?_, ?_, ?_, rfl⟩
  · rw [aggregate_keys]
    exact List.nodup_dedup _
  · intro k
    rw [aggregate_keys, List.mem_dedup]
    exact List.mem_map
  · intro k v hkv
    simp only [aggregate, List.mem_map] at hkv
    obtain ⟨k1, hk1, heq⟩ := hkv
    have h1 : k1 = k := congrArg Prod.fst heq
    have h2 : sumAmounts k1 (cartRows u cart ris ings) = v :=
      congrArg Prod.snd heq
    exact (h1 ▸ h2).symm

/-- Witness for C1: two cart recipes (1 and 2) of user 1 share the
ingredient "соль, г" with amounts 2 and 3; the aggregate holds the key
once and its total is 5 = 2 + 3. -/
theorem shopping_list_download_aggregates_witness :
    (5 : Int) = sumAmounts ("соль", "г")
      (cartRows 1 [(1, 1), (1, 2)]
        [⟨1, 10, 2⟩, ⟨2, 10, 3⟩] [⟨10, "соль", "г"⟩]) ∧
    ((aggregate (cartRows 1 [(1, 1), (1, 2)]
        [⟨1, 10, 2⟩, ⟨2, 10, 3⟩] [⟨10, "соль", "г"⟩])).map Prod.fst).Nodup :=
  ⟨(shopping_list_download_aggregates 1 [(1, 1), (1, 2)]
      [⟨1, 10, 2⟩, ⟨2, 10, 3⟩] [⟨10, "соль", "г"⟩]).2.2.1
      ("соль", "г") 5 (by decide),
   (shopping_list_download_aggregates 1 [(1, 1), (1, 2)]
      [⟨1, 10, 2⟩, ⟨2, 10, 3⟩] [⟨10, "соль", "г"⟩]).1⟩

/-- Claim C10: the two `download_shopping_cart` implementations produce
identical responses on every database state and requesting user; both
answer 200, and an empty cart yields the header-only body. -/
theorem download_implementations_agree (u : Nat) (cart : List (Nat × Nat))
    (ris : List RecipeIngredient) (ings : List Ingredient) :
    download_shopping_cart_recipes_views u cart ris ings =
      download_shopping_cart_api_views u cart ris ings ∧
    (download_shopping_cart_recipes_views u cart ris ings).1 = 200 ∧
    (cart.filter (fun c => c.1 = u) = [] →
      (download_shopping_cart_recipes_views u cart ris ings).2 =
        "Список покупок:\n") := by
  refine ⟨rfl, rfl, ?_⟩
  intro hc
  simp only [download_shopping_cart_recipes_views, cartRows, hc]
  rfl

/-- Witness for C10: user 1 with a cart that holds no row of theirs
receives the header-only body. -/
theorem download_implementations_agree_witness :
    (download_shopping_cart_recipes_views 1 [(2, 1)] [] []).2 =
      "Список покупок:\n" :=
  (download_implementations_agree 1 [(2, 1)] [] []).2.2 (by decide)

/-- A successful run of the retry loop returns one of the draws, and
one that collides with no existing code. -/
theorem genCode_fresh (existing : List String) :
    ∀ draws c, genCode existing draws = some c → c ∈ draws ∧ c ∉ existing := by
  intro draws
  induction draws with
  | nil => intro c h; simp [genCode] at h
  | cons d rest ih =>
    intro c h
    by_cases hd : d ∈ existing
    · rw [genCode, if_pos hd] at h
      rcases ih c h with ⟨h1, h2⟩
      exact ⟨List.mem_cons_of_mem _ h1, h2⟩
    · rw [genCode, if_neg hd] at h
      cases h
      exact ⟨List.mem_cons_self _ _, hd⟩

/-- The retry loop succeeds as soon as the draw list reaches a
non-colliding token. -/
theorem genCode_exists (existing : List String) :
    ∀ draws, (∃ d ∈ draws, d ∉ existing) → ∃ c, genCode existing draws = some c := by
  intro draws
  induction draws with
  | nil => rintro ⟨d, hd, _⟩; simp at hd
  | cons d rest ih =>
    rintro ⟨e, he, hne⟩
    by_cases hd : d ∈ existing
    · rw [List.mem_cons] at he
      rcases he with rfl | hrest
      · exact absurd hd hne
      · rcases ih ⟨e, hrest, hne⟩ with ⟨c, hc⟩
        exact ⟨c, by rw [genCode, if_pos hd]; exact hc⟩
    · exact ⟨d, by rw [genCode, if_neg hd]⟩

/-- The retry loop returns nothing within a draw list whose tokens all
collide. -/
theorem genCode_all_collide (existing : List String) :
    ∀ draws, (∀ d ∈ draws, d ∈ existing) → genCode existing draws = none := by
  intro draws
  induction draws with
  | nil => intro _; rfl
  | cons d rest ih =>
    intro h
    rw [genCode, if_pos (h d (List.mem_cons_self _ _))]
    exact ih (fun e he => h e (List.mem_cons_of_mem _ he))

/-- After any number of colliding draws, a fresh draw still succeeds. -/
theorem genCode_replicate (existing : List String) (x c : String)
    (hx : x ∈ existing) (hc : c ∉ existing) :
    ∀ n, genCode existing (List.replicate n x ++ [c]) = some c := by
  intro n
  induction n with
  | zero => rw [List.replicate_zero, List.nil_append, genCode, if_neg hc]
  | succ n ih =>
    rw [List.replicate_succ, List.cons_append, genCode, if_pos hx]
    exact ih

/-- `find?` hits an appended row whose key no earlier row carries. -/
theorem find_append_new (r1 : RecipeRow) :
    ∀ db : List RecipeRow, (∀ row ∈ db, row.id ≠ r1.id) →
      (db ++ [r1]).find? (fun row => row.id = r1.id) = some r1 := by
  intro db
  induction db with
  | nil => intro _; simp
  | cons a rest ih =>
    intro h
    have ha : ¬(a.id = r1.id) := h a (List.mem_cons_self _ _)
    have hrest := ih (fun row hrow => h row (List.mem_cons_of_mem _ hrow))
    have hdec : (decide (a.id = r1.id)) = false := decide_eq_false ha
    rw [List.cons_append, List.find?_cons, hdec]
    exact hrest

/-- Claim C2 (aux): a first save inserts the row, since its key is new. -/
theorem upsertRow_new (db : List RecipeRow) (r1 : RecipeRow)
    (h : ∀ row ∈ db, row.id ≠ r1.id) : upsertRow db r1 = db ++ [r1] := by
  rw [upsertRow, if_neg]
  intro hany
  rcases List.any_eq_true.mp hany with ⟨row, hrow, hid⟩
  exact h row hrow (by simpa using hid)

/-- Claim C2: a first save of a recipe (empty `short_code`, fresh
primary key) that terminates stores a non-empty code that no other
recipe carries, preserving the invariant that all stored codes are
non-empty and pairwise distinct, and the stored row keeps every other
field; a save of a recipe whose `short_code` is already set stores the
row with that code unchanged. -/
theorem short_code_unique_immutable (db : List RecipeRow) (r : RecipeRow)
    (draws : List String) :
    (ShortCodeInv db → r.short_code = "" → (∀ row ∈ db, row.id ≠ r.id) →
      (∀ d ∈ draws, d.length = 6) →
      ∀ db2, recipeSave db r draws = some db2 →
        ShortCodeInv db2 ∧
        ∃ c, c ≠ "" ∧ findRow db2 r.id = some { r with short_code := c }) ∧
    (r.short_code ≠ "" → recipeSave db r draws = some (upsertRow db r)) := by
  constructor
  · intro hinv hempty hfreshid hlen db2 hsave
    rw [recipeSave, if_pos hempty] at hsave
    rcases hgen : genCode (db.map (fun row => row.short_code)) draws with _ | c
    · rw [hgen] at hsave
      cases hsave
    · rw [hgen] at hsave
      cases hsave
      rcases genCode_fresh _ draws c hgen with ⟨hcdraws, hcfresh⟩
      have hcne : c ≠ "" := by
        intro hceq
        have := hlen c hcdraws
        rw [hceq] at this
        simp at this
      have hids : ∀ row ∈ db, row.id ≠ ({ r with short_code := c } : RecipeRow).id :=
        fun row hrow => hfreshid row hrow
      rw [upsertRow_new db _ hids]
      refine ⟨⟨?_, ?_⟩, c, hcne, ?_⟩
      · intro row hrow
        rcases List.mem_append.mp hrow with hdb | hnew
        · exact hinv.1 row hdb
        · rw [List.mem_singleton.mp hnew]
          exact hcne
      · rw [List.map_append]
        rw [List.nodup_append]
        refine ⟨hinv.2, List.nodup_singleton _, ?_⟩
        intro s hs hs1
        rw [List.map_singleton, List.mem_singleton] at hs1
        subst hs1
        exact hcfresh (by simpa using hs)
      · rw [findRow]
        exact find_append_new _ db hids
  · intro hcode
    rw [recipeSave, if_neg hcode]

/-- Witness for C2: saving recipe 2 with empty code into a table holding
code "abcdef" draws "abcdef" (collision) then "ghijkl" (fresh); the
result satisfies the invariant and stores row ⟨2, "ghijkl"⟩; re-saving a
recipe whose code is set keeps it. -/
theorem short_code_unique_immutable_witness :
    (ShortCodeInv [⟨1, "abcdef"⟩, ⟨2, "ghijkl"⟩] ∧
      ∃ c, c ≠ "" ∧
        findRow [⟨1, "abcdef"⟩, ⟨2, "ghijkl"⟩] 2 = some ⟨2, c⟩) ∧
    recipeSave [⟨1, "abcdef"⟩] ⟨2, "ghijkl"⟩ ["mnopqr"] =
      some (upsertRow [⟨1, "abcdef"⟩] ⟨2, "ghijkl"⟩) := by
  constructor
  · exact (short_code_unique_immutable [⟨1, "abcdef"⟩] ⟨2, ""⟩
      ["abcdef", "ghijkl"]).1 (by constructor <;> decide) rfl (by decide)
      (by decide) [⟨1, "abcdef"⟩, ⟨2, "ghijkl"⟩] (by rfl)
  · exact (short_code_unique_immutable [⟨1, "abcdef"⟩] ⟨2, "ghijkl"⟩
      ["mnopqr"]).2 (by decide)

/-- Claim C8: the assignment loop returns the first non-colliding draw,
so it terminates exactly when the draw sequence reaches a token not
already assigned; an unassigned 6-character code makes a terminating
draw sequence of 6-character tokens possible; the loop still succeeds
after arbitrarily many colliding draws (no retry cap); and a draw
sequence whose tokens all collide leaves it without a result. -/
theorem short_code_loop_runs_until_fresh (existing : List String)
    (draws : List String) (x c : String) (n : Nat) :
    ((∃ d ∈ draws, d ∉ existing) →
      ∃ c0, genCode existing draws = some c0 ∧ c0 ∈ draws ∧ c0 ∉ existing) ∧
    ((∃ c1 : String, c1.length = 6 ∧ c1 ∉ existing) →
      ∃ ds : List String, (∀ d ∈ ds, d.length = 6) ∧
        ∃ c2, genCode existing ds = some c2 ∧ c2 ∉ existing) ∧
    (x ∈ existing → c ∉ existing →
      genCode existing (List.replicate n x ++ [c]) = some c) ∧
    ((∀ d ∈ draws, d ∈ existing) → genCode existing draws = none) := by
  refine ⟨?_, ?_, ?_, genCode_all_collide existing draws⟩
  · intro h
    rcases genCode_exists existing draws h with ⟨c0, hc0⟩
    rcases genCode_fresh existing draws c0 hc0 with ⟨h1, h2⟩
    exact ⟨c0, hc0, h1, h2⟩
  · rintro ⟨c1, hlen, hfresh⟩
    refine ⟨[c1], ?_, c1, ?_, hfresh⟩
    · intro d hd
      rw [List.mem_singleton.mp hd]
      exact hlen
    · rw [genCode, if_neg hfresh]
  · intro hx hc
    exact genCode_replicate existing x c hx hc n

/-- Witness for C8 with one assigned code "abcdef": the draw list
["abcdef", "ghijkl"] terminates on the fresh token, and three colliding
draws before "ghijkl" still succeed. -/
theorem short_code_loop_runs_until_fresh_witness :
    (∃ c0, genCode ["abcdef"] ["abcdef", "ghijkl"] = some c0 ∧
      c0 ∈ ["abcdef", "ghijkl"] ∧ c0 ∉ ["abcdef"]) ∧
    genCode ["abcdef"] (List.replicate 3 "abcdef" ++ ["ghijkl"]) =
      some "ghijkl" ∧
    genCode ["abcdef"] ["abcdef", "abcdef"] = none := by
  have h := short_code_loop_runs_until_fresh ["abcdef"] ["abcdef", "ghijkl"]
    "abcdef" "ghijkl" 3
  have h2 := short_code_loop_runs_until_fresh ["abcdef"] ["abcdef", "abcdef"]
    "abcdef" "ghijkl" 3
  exact ⟨h.1 ⟨"ghijkl", by decide, by decide⟩,
    h.2.2.1 (by decide) (by decide), h2.2.2.2 (by decide)⟩

/-- Sequencing after a success runs the continuation. -/
theorem andThen_ok {α β : Type} (a : α) (f : α → Except String β) :
    andThen (.ok a) f = f a := rfl

/-- Sequencing after a failure keeps the failure. -/
theorem andThen_error {α β : Type} (m : String) (f : α → Except String β) :
    andThen (.error m) f = .error m := rfl

/-- A pipeline that cannot succeed is an error. -/
theorem isError_of_ne_ok {α : Type} (e : Except String α)
    (h : ∀ a, e ≠ .ok a) : isError e = true := by
  cases e with
  | error m => rfl
  | ok a => exact absurd rfl (h a)

/-- The per-item validation loop succeeds exactly when every entry's id
exists and every amount is at least 1 — no upper bound is consulted. -/
theorem check_items_ok_iff (existing : List Nat) :
    ∀ value : List IngredientInput,
      recipes_serializers.check_items existing value = .ok () ↔
        ∀ i ∈ value, i.id ∈ existing ∧ 1 ≤ i.amount := by
  intro value
  induction value with
  | nil => simp [recipes_serializers.check_items]
  | cons item rest ih =>
    rw [recipes_serializers.check_items]
    by_cases h1 : item.id ∈ existing
    · rw [if_neg (fun hn => hn h1)]
      by_cases h2 : item.amount < 1
      · rw [if_pos h2]
        constructor
        · intro h
          exact Except.noConfusion h
        · intro h
          have := (h item (List.mem_cons_self _ _)).2
          omega
      · rw [if_neg h2, ih]
        constructor
        · intro h i hi
          rcases List.mem_cons.mp hi with rfl | hr
          · exact ⟨h1, by omega⟩
          · exact h i hr
        · intro h i hi
          exact h i (List.mem_cons_of_mem _ hi)
    · rw [if_pos h1]
      constructor
      · intro h
        exact Except.noConfusion h
      · intro h
        exact absurd (h item (List.mem_cons_self _ _)).1 h1

/-- Inversion of `validate_ingredients` on success: the list comes back
unchanged, is non-empty, has no duplicate id, every id exists and every
amount is at least 1. -/
theorem validate_ingredients_ok_inv (existing : List Nat)
    (v w : List IngredientInput)
    (h : recipes_serializers.validate_ingredients existing v = .ok w) :
    w = v ∧ v ≠ [] ∧ (v.map (fun i => i.id)).Nodup ∧
      ∀ i ∈ v, i.id ∈ existing ∧ 1 ≤ i.amount := by
  unfold recipes_serializers.validate_ingredients at h
  split at h
  · exact Except.noConfusion h
  · split at h
    · exact Except.noConfusion h
    · rcases hc : recipes_serializers.check_items existing v with m | u
      · rw [hc, andThen_error] at h
        exact Except.noConfusion h
      · cases u
        rw [hc, andThen_ok] at h
        cases h
        rename_i hemp hdup
        refine ⟨rfl, ?_, not_not.mp hdup,
          (check_items_ok_iff existing v).mp hc⟩
        intro hnil
        rw [hnil] at hemp
        exact hemp rfl

/-- `validate_ingredients` succeeds on a non-empty duplicate-free list
whose ids all exist and whose amounts are all at least 1 — regardless of
how large the amounts are. -/
theorem validate_ingredients_ok_of (existing : List Nat)
    (v : List IngredientInput) (h1 : v ≠ [])
    (h2 : (v.map (fun i => i.id)).Nodup)
    (h3 : ∀ i ∈ v, i.id ∈ existing ∧ 1 ≤ i.amount) :
    recipes_serializers.validate_ingredients existing v = .ok v := by
  have hemp : ¬(v.isEmpty = true) := by
    cases v with
    | nil => exact absurd rfl h1
    | cons a l => simp
  rw [recipes_serializers.validate_ingredients, if_neg hemp,
    if_neg (not_not_intro h2), (check_items_ok_iff existing v).mpr h3,
    andThen_ok]

/-- Inversion of the whole recipes-serializer create pipeline: success
forces every validated condition and the created state. -/
theorem run_create_ok_inv (db : WriteDb) (rid : Nat)
    (ings : List IngredientInput) (tags : List Nat) (ct : Int)
    (db2 : WriteDb)
    (h : recipes_serializers.run_create db rid ings tags ct = .ok db2) :
    ings ≠ [] ∧ (ings.map (fun i => i.id)).Nodup ∧
      (∀ i ∈ ings, i.id ∈ db.ingredientIds ∧ 1 ≤ i.amount) ∧
      tags ≠ [] ∧ (∀ t ∈ tags, t ∈ db.tagIds) ∧ tags.Nodup ∧
      MIN_COOKING_TIME ≤ ct ∧ ct ≤ MAX_COOKING_TIME ∧
      db2 = recipes_serializers.create_recipe db rid ings tags := by
  unfold recipes_serializers.run_create at h
  rcases hs1 : recipes_serializers.ingredients_field ings with m | ings1
  · rw [hs1, andThen_error] at h
    exact Except.noConfusion h
  · rw [hs1, andThen_ok] at h
    have hings1 : ings1 = ings := by
      unfold recipes_serializers.ingredients_field at hs1
      split at hs1
      · exact Except.noConfusion hs1
      · cases hs1
        rfl
    rw [hings1] at h
    rcases hs2 : recipes_serializers.validate_ingredients db.ingredientIds ings
      with m | ings2
    · rw [hs2, andThen_error] at h
      exact Except.noConfusion h
    · rw [hs2, andThen_ok] at h
      rcases validate_ingredients_ok_inv db.ingredientIds ings ings2 hs2 with
        ⟨hw, hne, hnd, hitems⟩
      rw [hw] at h
      rcases hs3 : recipes_serializers.tags_field db.tagIds tags with m | tags1
      · rw [hs3, andThen_error] at h
        exact Except.noConfusion h
      · rw [hs3, andThen_ok] at h
        have htags1 : tags1 = tags ∧ tags ≠ [] ∧ ∀ t ∈ tags, t ∈ db.tagIds := by
          unfold recipes_serializers.tags_field at hs3
          split at hs3
          · exact Except.noConfusion hs3
          · split at hs3
            · exact Except.noConfusion hs3
            · cases hs3
              rename_i hte hany
              refine ⟨rfl, ?_, ?_⟩
              · intro hnil
                rw [hnil] at hte
                exact hte rfl
              · intro t ht
                by_contra hnt
                exact hany (List.any_eq_true.mpr ⟨t, ht, by simpa using hnt⟩)
        rcases htags1 with ⟨hw1, hte, hmem⟩
        rw [hw1] at h
        rcases hs4 : recipes_serializers.validate_tags tags with m | tags2
        · rw [hs4, andThen_error] at h
          exact Except.noConfusion h
        · rw [hs4, andThen_ok] at h
          have htags2 : tags2 = tags ∧ tags.Nodup := by
            unfold recipes_serializers.validate_tags at hs4
            split at hs4
            · exact Except.noConfusion hs4
            · split at hs4
              · exact Except.noConfusion hs4
              · cases hs4
                rename_i hdup
                exact ⟨rfl, not_not.mp hdup⟩
          rcases htags2 with ⟨hw2, hnd2⟩
          rw [hw2] at h
          rcases hs5 : recipes_serializers.run_cooking_time ct with m | v
          · rw [hs5, andThen_error] at h
            exact Except.noConfusion h
          · rw [hs5, andThen_ok] at h
            have hct : MIN_COOKING_TIME ≤ ct ∧ ct ≤ MAX_COOKING_TIME := by
              unfold recipes_serializers.run_cooking_time
                recipes_serializers.cooking_time_field at hs5
              split at hs5
              · rw [andThen_error] at hs5
                exact Except.noConfusion hs5
              · split at hs5
                · rw [andThen_error] at hs5
                  exact Except.noConfusion hs5
                · rename_i hlo hhi
                  exact ⟨by omega, by omega⟩
            cases h
            exact ⟨hne, hnd, hitems, hte, hmem, hnd2, hct.1, hct.2, rfl⟩

/-- The recipes-serializer create pipeline succeeds on fully valid input
and performs exactly the insertions of `create`. -/
theorem run_create_ok_of (db : WriteDb) (rid : Nat)
    (ings : List IngredientInput) (tags : List Nat) (ct : Int)
    (h1 : ings ≠ []) (h2 : (ings.map (fun i => i.id)).Nodup)
    (h3 : ∀ i ∈ ings, i.id ∈ db.ingredientIds ∧ 1 ≤ i.amount)
    (h4 : tags ≠ []) (h5 : ∀ t ∈ tags, t ∈ db.tagIds) (h6 : tags.Nodup)
    (h7 : MIN_COOKING_TIME ≤ ct) (h8 : ct ≤ MAX_COOKING_TIME) :
    recipes_serializers.run_create db rid ings tags ct =
      .ok (recipes_serializers.create_recipe db rid ings tags) := by
  have hemp : ¬(ings.isEmpty = true) := by
    cases ings with
    | nil => exact absurd rfl h1
    | cons a l => simp
  have hte : ¬(tags.isEmpty = true) := by
    cases tags with
    | nil => exact absurd rfl h4
    | cons a l => simp
  have hfield : recipes_serializers.ingredients_field ings = .ok ings := by
    rw [recipes_serializers.ingredients_field, if_neg hemp]
  have hany : ¬(tags.any (fun t => t ∉ db.tagIds) = true) := by
    intro hx
    rcases List.any_eq_true.mp hx with ⟨t, ht, hnt⟩
    have hnt2 : ¬(t ∈ db.tagIds) := by simpa using hnt
    exact hnt2 (h5 t ht)
  have htf : recipes_serializers.tags_field db.tagIds tags = .ok tags := by
    rw [recipes_serializers.tags_field, if_neg hte, if_neg hany]
  have hvt : recipes_serializers.validate_tags tags = .ok tags := by
    rw [recipes_serializers.validate_tags, if_neg hte,
      if_neg (not_not_intro h6)]
  have h7i : (1 : Int) ≤ ct := h7
  have h8i : ct ≤ (32000 : Int) := h8
  have hct : recipes_serializers.run_cooking_time ct = .ok ct := by
    rw [recipes_serializers.run_cooking_time,
      recipes_serializers.cooking_time_field,
      if_neg (by unfold MIN_COOKING_TIME; omega),
      if_neg (by unfold MAX_COOKING_TIME; omega), andThen_ok,
      recipes_serializers.validate_cooking_time, if_neg (by omega)]
  rw [recipes_serializers.run_create, hfield, andThen_ok,
    validate_ingredients_ok_of db.ingredientIds ings h1 h2 h3, andThen_ok,
    htf, andThen_ok, hvt, andThen_ok, hct, andThen_ok]

/-- The api-serializer object-level `validate` succeeds exactly on a
non-empty duplicate-free ingredients list and a non-empty
duplicate-free tags list. -/
theorem api_validate_ok_iff (ings : List IngredientInput) (tags : List Nat) :
    api_serializers.validate ings tags = .ok () ↔
      (ings ≠ [] ∧ (ings.map (fun i => i.id)).Nodup ∧
        tags ≠ [] ∧ tags.Nodup) := by
  unfold api_serializers.validate
  constructor
  · intro h
    split at h
    · exact Except.noConfusion h
    · split at h
      · exact Except.noConfusion h
      · split at h
        · exact Except.noConfusion h
        · split at h
          · exact Except.noConfusion h
          · rename_i hemp hdup hte hdup2
            refine ⟨?_, not_not.mp hdup, ?_, not_not.mp hdup2⟩
            · intro hnil
              rw [hnil] at hemp
              exact hemp rfl
            · intro hnil
              rw [hnil] at hte
              exact hte rfl
  · rintro ⟨h1, h2, h3, h4⟩
    have hemp : ¬(ings.isEmpty = true) := by
      cases ings with
      | nil => exact absurd rfl h1
      | cons a l => simp
    have hte : ¬(tags.isEmpty = true) := by
      cases tags with
      | nil => exact absurd rfl h3
      | cons a l => simp
    rw [if_neg hemp, if_neg (not_not_intro h2), if_neg hte,
      if_neg (not_not_intro h4)]

/-- The cooking-time pipeline of the recipes serializer accepts exactly
the configured interval. -/
theorem run_cooking_time_ok_iff (v : Int) :
    recipes_serializers.run_cooking_time v = .ok v ↔
      MIN_COOKING_TIME ≤ v ∧ v ≤ MAX_COOKING_TIME := by
  unfold recipes_serializers.run_cooking_time
    recipes_serializers.cooking_time_field
    recipes_serializers.validate_cooking_time MIN_COOKING_TIME MAX_COOKING_TIME
  by_cases h1 : v < 1
  · rw [if_pos h1, andThen_error]
    constructor
    · intro h
      exact Except.noConfusion h
    · intro h
      exfalso
      omega
  · rw [if_neg h1]
    by_cases h2 : v > 32000
    · rw [if_pos h2, andThen_error]
      constructor
      · intro h
        exact Except.noConfusion h
      · intro h
        exfalso
        omega
    · rw [if_neg h2, andThen_ok, if_neg h1]
      constructor
      · intro _
        omega
      · intro _
        rfl

/-- The api serializer's generated `amount` field accepts exactly the
configured interval. -/
theorem amount_field_ok_iff (w : Int) :
    api_serializers.amount_field w = .ok w ↔
      MIN_AMOUNT ≤ w ∧ w ≤ MAX_AMOUNT := by
  unfold api_serializers.amount_field MIN_AMOUNT MAX_AMOUNT
  by_cases h1 : w < 1
  · rw [if_pos h1]
    constructor
    · intro h
      exact Except.noConfusion h
    · intro h
      exfalso
      omega
  · rw [if_neg h1]
    by_cases h2 : w > 32000
    · rw [if_pos h2]
      constructor
      · intro h
        exact Except.noConfusion h
      · intro h
        exfalso
        omega
    · rw [if_neg h2]
      constructor
      · intro _
        omega
      · intro _
        rfl

/-- Claim C3: a create request whose ingredients list is empty, repeats
an ingredient id, references a nonexistent ingredient id, or whose tags
list is empty or repeats a tag, is rejected by the recipes-serializer
create pipeline (and, where the same check lives there, by the api
serializer's object-level `validate`), and no `Recipe` row is created:
the pipeline's only success result is the state built by `create`. -/
theorem create_validation_rejects (db : WriteDb) (rid : Nat)
    (ings : List IngredientInput) (tags : List Nat) (ct : Int) :
    (ings = [] →
      isError (recipes_serializers.run_create db rid ings tags ct) = true ∧
      isError (api_serializers.validate ings tags) = true) ∧
    (¬ (ings.map (fun i => i.id)).Nodup →
      isError (recipes_serializers.run_create db rid ings tags ct) = true ∧
      isError (api_serializers.validate ings tags) = true) ∧
    ((∃ i ∈ ings, i.id ∉ db.ingredientIds) →
      isError (recipes_serializers.run_create db rid ings tags ct) = true) ∧
    (tags = [] →
      isError (recipes_serializers.run_create db rid ings tags ct) = true ∧
      isError (api_serializers.validate ings tags) = true) ∧
    (¬ tags.Nodup →
      isError (recipes_serializers.run_create db rid ings tags ct) = true ∧
      isError (api_serializers.validate ings tags) = true) ∧
    (∀ db2, recipes_serializers.run_create db rid ings tags ct = .ok db2 →
      db2 = recipes_serializers.create_recipe db rid ings tags) := by
  refine ⟨?_, ?_, ?_, ?_, ?_, ?_⟩
  · intro h
    constructor
    · apply isError_of_ne_ok
      intro db2 hok
      exact (run_create_ok_inv db rid ings tags ct db2 hok).1 h
    · apply isError_of_ne_ok
      intro u hok
      cases u
      exact ((api_validate_ok_iff ings tags).mp hok).1 h
  · intro h
    constructor
    · apply isError_of_ne_ok
      intro db2 hok
      exact h (run_create_ok_inv db rid ings tags ct db2 hok).2.1
    · apply isError_of_ne_ok
      intro u hok
      cases u
      exact h ((api_validate_ok_iff ings tags).mp hok).2.1
  · rintro ⟨i, hi, hbad⟩
    apply isError_of_ne_ok
    intro db2 hok
    exact hbad ((run_create_ok_inv db rid ings tags ct db2 hok).2.2.1 i hi).1
  · intro h
    constructor
    · apply isError_of_ne_ok
      intro db2 hok
      exact (run_create_ok_inv db rid ings tags ct db2 hok).2.2.2.1 h
    · apply isError_of_ne_ok
      intro u hok
      cases u
      exact ((api_validate_ok_iff ings tags).mp hok).2.2.1 h
  · intro h
    constructor
    · apply isError_of_ne_ok
      intro db2 hok
      exact h (run_create_ok_inv db rid ings tags ct db2 hok).2.2.2.2.2.1
    · apply isError_of_ne_ok
      intro u hok
      cases u
      exact h ((api_validate_ok_iff ings tags).mp hok).2.2.2
  · intro db2 hok
    exact (run_create_ok_inv db rid ings tags ct db2 hok).2.2.2.2.2.2.2.2

/-- Witness for C3 over the state with ingredient 1 and tag 1: empty
ingredients, a duplicated ingredient id, a nonexistent ingredient id,
empty tags and a duplicated tag are each rejected. -/
theorem create_validation_rejects_witness :
    isError (recipes_serializers.run_create ⟨[1], [1], [], [], []⟩ 1
      [] [1] 10) = true ∧
    isError (api_serializers.validate
      [⟨1, 5⟩, ⟨1, 6⟩] [1]) = true ∧
    isError (recipes_serializers.run_create ⟨[1], [1], [], [], []⟩ 1
      [⟨2, 5⟩] [1] 10) = true ∧
    isError (recipes_serializers.run_create ⟨[1], [1], [], [], []⟩ 1
      [⟨1, 5⟩] [] 10) = true ∧
    isError (recipes_serializers.run_create ⟨[1], [1], [], [], []⟩ 1
      [⟨1, 5⟩] [1, 1] 10) = true :=
  ⟨((create_validation_rejects ⟨[1], [1], [], [], []⟩ 1 [] [1] 10).1 rfl).1,
   ((create_validation_rejects ⟨[1], [1], [], [], []⟩ 1
      [⟨1, 5⟩, ⟨1, 6⟩] [1] 10).2.1 (by decide)).2,
   (create_validation_rejects ⟨[1], [1], [], [], []⟩ 1
      [⟨2, 5⟩] [1] 10).2.2.1 ⟨⟨2, 5⟩, by decide, by decide⟩,
   ((create_validation_rejects ⟨[1], [1], [], [], []⟩ 1
      [⟨1, 5⟩] [] 10).2.2.2.1 rfl).1,
   ((create_validation_rejects ⟨[1], [1], [], [], []⟩ 1
      [⟨1, 5⟩] [1, 1] 10).2.2.2.2.1 (by decide)).1⟩

/-- Counterexample to claim C4 as stated: via the recipes write
serializer, a create whose only ingredient carries amount
MAX_AMOUNT + 1 succeeds — the per-item loop checks `amount < 1` only,
and `RecipeIngredient.objects.create` runs no model validators — so an
amount above MAX_AMOUNT is not rejected. -/
theorem amount_above_max_not_rejected :
    isError (recipes_serializers.run_create ⟨[1], [1], [], [], []⟩ 1
      [⟨1, MAX_AMOUNT + 1⟩] [1] 10) = false ∧
    MAX_AMOUNT < MAX_AMOUNT + 1 := by
  constructor
  · decide
  · decide

/-- Claim C4 (amended): cooking_time is accepted exactly on
[MIN_COOKING_TIME, MAX_COOKING_TIME] (both boundaries accepted, outside
rejected); an ingredient amount below MIN_AMOUNT is rejected by the
recipes write serializer, but an amount above MAX_AMOUNT is not — any
non-empty duplicate-free list of existing ids with amounts at least
MIN_AMOUNT passes, however large the amounts.  Only the api write
serializer's generated amount field enforces [MIN_AMOUNT, MAX_AMOUNT]. -/
theorem cooking_time_and_amount_bounds (existing : List Nat)
    (ings : List IngredientInput) (v w : Int) :
    (recipes_serializers.run_cooking_time v = .ok v ↔
      MIN_COOKING_TIME ≤ v ∧ v ≤ MAX_COOKING_TIME) ∧
    ((∃ i ∈ ings, i.amount < MIN_AMOUNT) →
      isError (recipes_serializers.validate_ingredients existing ings) = true) ∧
    (ings ≠ [] → (ings.map (fun i => i.id)).Nodup →
      (∀ i ∈ ings, i.id ∈ existing ∧ MIN_AMOUNT ≤ i.amount) →
      recipes_serializers.validate_ingredients existing ings = .ok ings) ∧
    (api_serializers.amount_field w = .ok w ↔
      MIN_AMOUNT ≤ w ∧ w ≤ MAX_AMOUNT) := by
  refine ⟨run_cooking_time_ok_iff v, ?_, ?_, amount_field_ok_iff w⟩
  · rintro ⟨i, hi, hlow⟩
    apply isError_of_ne_ok
    intro l hok
    rcases validate_ingredients_ok_inv existing ings l hok with ⟨_, _, _, hall⟩
    have hge : (1 : Int) ≤ i.amount := (hall i hi).2
    have hlt : i.amount < (1 : Int) := hlow
    omega
  · intro h1 h2 h3
    exact validate_ingredients_ok_of existing ings h1 h2
      (fun i hi => ⟨(h3 i hi).1, (h3 i hi).2⟩)

/-- Witness for C4: both cooking-time boundaries accepted, amount 0
rejected, amount 32001 accepted by the recipes serializer, boundary
amount accepted by the api field. -/
theorem cooking_time_and_amount_bounds_witness :
    recipes_serializers.run_cooking_time MIN_COOKING_TIME =
      .ok MIN_COOKING_TIME ∧
    recipes_serializers.run_cooking_time MAX_COOKING_TIME =
      .ok MAX_COOKING_TIME ∧
    isError (recipes_serializers.validate_ingredients [1] [⟨1, 0⟩]) = true ∧
    recipes_serializers.validate_ingredients [1] [⟨1, MAX_AMOUNT + 1⟩] =
      .ok [⟨1, MAX_AMOUNT + 1⟩] ∧
    api_serializers.amount_field MAX_AMOUNT = .ok MAX_AMOUNT :=
  ⟨(cooking_time_and_amount_bounds [] [] MIN_COOKING_TIME 0).1.mpr
      (by constructor <;> decide),
   (cooking_time_and_amount_bounds [] [] MAX_COOKING_TIME 0).1.mpr
      (by constructor <;> decide),
   (cooking_time_and_amount_bounds [1] [⟨1, 0⟩] 0 0).2.1
      ⟨⟨1, 0⟩, by decide, by decide⟩,
   (cooking_time_and_amount_bounds [1] [⟨1, MAX_AMOUNT + 1⟩] 0 0).2.2.1
      (by decide) (by decide) (by decide),
   (cooking_time_and_amount_bounds [] [] 0 MAX_AMOUNT).2.2.2.mpr
      (by constructor <;> decide)⟩

/-- Filtering a kept-complement list: re-filtering with the predicate
yields nothing, re-filtering with its negation changes nothing. -/
theorem filter_not_filter_self {α : Type} (p : α → Prop) [DecidablePred p] :
    ∀ l : List α, (l.filter (fun x => ¬ p x)).filter (fun x => p x) = [] ∧
      (l.filter (fun x => ¬ p x)).filter (fun x => ¬ p x) =
        l.filter (fun x => ¬ p x) := by
  intro l
  induction l with
  | nil => exact ⟨rfl, rfl⟩
  | cons a rest ih =>
    by_cases hp : p a
    · simp only [List.filter_cons]
      rw [if_neg (by simpa using hp)]
      exact ih
    · simp only [List.filter_cons]
      rw [if_pos (by simpa using hp)]
      refine ⟨?_, ?_⟩
      · rw [List.filter_cons, if_neg (by simpa using hp)]
        exact ih.1
      · rw [List.filter_cons, if_pos (by simpa using hp), ih.2]

/-- Claim C6: an update carrying both collections replaces the recipe's
`RecipeIngredient` rows with exactly the supplied entries (every
previous row of that recipe is gone) and its tag assignments with
exactly the supplied tags, leaving every other recipe's rows untouched;
and a PATCH payload missing the ingredients list or the tags list is
rejected by `validate`. -/
theorem update_replaces_collections (db : WriteDb) (rid : Nat)
    (ings : List IngredientInput) (tags : List Nat) (hasIngs hasTags : Bool) :
    ((recipes_serializers.update_recipe db rid ings tags).recipeIngredients.filter
        (fun ri => ri.recipe = rid) =
      ings.map (fun i => ⟨rid, i.id, i.amount⟩)) ∧
    ((recipes_serializers.update_recipe db rid ings tags).recipeIngredients.filter
        (fun ri => ¬ ri.recipe = rid) =
      db.recipeIngredients.filter (fun ri => ¬ ri.recipe = rid)) ∧
    ((recipes_serializers.update_recipe db rid ings tags).recipeTags.filter
        (fun q => q.1 = rid) = tags.map (fun t => (rid, t))) ∧
    ((recipes_serializers.update_recipe db rid ings tags).recipeTags.filter
        (fun q => ¬ q.1 = rid) =
      db.recipeTags.filter (fun q => ¬ q.1 = rid)) ∧
    isError (recipes_serializers.validate_presence true false hasTags) = true ∧
    isError (recipes_serializers.validate_presence true hasIngs false) = true := by
  have hnewIngs : (ings.map (fun i =>
      (⟨rid, i.id, i.amount⟩ : RecipeIngredient))).filter
      (fun ri => ri.recipe = rid) = ings.map (fun i => ⟨rid, i.id, i.amount⟩) := by
    apply List.filter_eq_self.mpr
    intro x hx
    rcases List.mem_map.mp hx with ⟨i, _, rfl⟩
    simp
  have hnewTags : (tags.map (fun t => (rid, t))).filter
      (fun q => q.1 = rid) = tags.map (fun t => (rid, t)) := by
    apply List.filter_eq_self.mpr
    intro x hx
    rcases List.mem_map.mp hx with ⟨t, _, rfl⟩
    simp
  have hnewIngs2 : (ings.map (fun i =>
      (⟨rid, i.id, i.amount⟩ : RecipeIngredient))).filter
      (fun ri => ¬ ri.recipe = rid) = [] := by
    rw [List.filter_eq_nil_iff]
    intro x hx
    rcases List.mem_map.mp hx with ⟨i, _, rfl⟩
    simp
  have hnewTags2 : (tags.map (fun t => (rid, t))).filter
      (fun q => ¬ q.1 = rid) = [] := by
    rw [List.filter_eq_nil_iff]
    intro x hx
    rcases List.mem_map.mp hx with ⟨t, _, rfl⟩
    simp
  refine ⟨?_, ?_, ?_, ?_, ?_, ?_⟩
  · simp only [recipes_serializers.update_recipe, List.filter_append]
    rw [(filter_not_filter_self (fun ri => ri.recipe = rid)
      db.recipeIngredients).1, hnewIngs, List.nil_append]
  · simp only [recipes_serializers.update_recipe, List.filter_append]
    rw [(filter_not_filter_self (fun ri => ri.recipe = rid)
      db.recipeIngredients).2, hnewIngs2, List.append_nil]
  · simp only [recipes_serializers.update_recipe, List.filter_append]
    rw [(filter_not_filter_self (fun q : Nat × Nat => q.1 = rid)
      db.recipeTags).1, hnewTags, List.nil_append]
  · simp only [recipes_serializers.update_recipe, List.filter_append]
    rw [(filter_not_filter_self (fun q : Nat × Nat => q.1 = rid)
      db.recipeTags).2, hnewTags2, List.append_nil]
  · rfl
  · cases hasIngs <;> rfl

/-- Witness for C6: recipe 1's old rows vanish, the supplied entry and
tag replace them, recipe 2's row survives; PATCHes missing a list are
rejected. -/
theorem update_replaces_collections_witness :
    ((recipes_serializers.update_recipe
        ⟨[1, 2], [1, 2], [1, 2], [⟨1, 1, 5⟩, ⟨2, 2, 7⟩], [(1, 1), (2, 2)]⟩
        1 [⟨2, 9⟩] [2]).recipeIngredients.filter
      (fun ri => ri.recipe = 1) = [⟨1, 2, 9⟩]) ∧
    ((recipes_serializers.update_recipe
        ⟨[1, 2], [1, 2], [1, 2], [⟨1, 1, 5⟩, ⟨2, 2, 7⟩], [(1, 1), (2, 2)]⟩
        1 [⟨2, 9⟩] [2]).recipeIngredients.filter
      (fun ri => ¬ ri.recipe = 1) = [⟨2, 2, 7⟩]) ∧
    isError (recipes_serializers.validate_presence true false true) = true := by
  have h := update_replaces_collections
    ⟨[1, 2], [1, 2], [1, 2], [⟨1, 1, 5⟩, ⟨2, 2, 7⟩], [(1, 1), (2, 2)]⟩
    1 [⟨2, 9⟩] [2] false true
  refine ⟨?_, ?_, h.2.2.2.2.1⟩
  · rw [h.1]
    rfl
  · rw [h.2.1]
    decide

/-- The two membership filters share one body. -/
theorem filter_cart_eq_fav (auth : Option Nat) (rows : List (Nat × Nat))
    (qs : List FilterRecipe) (pv : Option String) :
    filter_is_in_shopping_cart auth rows qs pv =
      filter_is_favorited auth rows qs pv := by
  cases pv <;> rfl

/-- An anonymous requester's queryset passes the membership filter
unchanged, whatever the parameter value. -/
theorem filter_is_favorited_anon (rows : List (Nat × Nat))
    (qs : List FilterRecipe) (pv : Option String) :
    filter_is_favorited none rows qs pv = qs := by
  cases pv with
  | none => rfl
  | some v =>
    simp only [filter_is_favorited]
    by_cases hv : v = ""
    · rw [if_pos hv]
    · rw [if_neg hv]

/-- Membership in the author filter's output. -/
theorem mem_filter_author (pa : Option Nat) (qs : List FilterRecipe)
    (r : FilterRecipe) :
    r ∈ filter_author qs pa ↔ r ∈ qs ∧ authorPred pa r := by
  cases pa with
  | none => simp [filter_author, authorPred]
  | some a => simp [filter_author, authorPred, List.mem_filter]

/-- Membership in the tags filter's output. -/
theorem mem_filter_tags (slugs : List String) (qs : List FilterRecipe)
    (r : FilterRecipe) :
    r ∈ filter_tags qs slugs ↔ r ∈ qs ∧ tagsPred slugs r := by
  unfold filter_tags tagsPred
  by_cases h : slugs.isEmpty
  · rw [if_pos h]
    simp [h]
  · rw [if_neg h, List.mem_filter]
    constructor
    · rintro ⟨h1, h2⟩
      exact ⟨h1, Or.inr h2⟩
    · rintro ⟨h1, h2 | h2⟩
      · exact absurd h2 h
      · exact ⟨h1, h2⟩

/-- Membership in a membership filter's output. -/
theorem mem_filter_membership (auth : Option Nat) (rows : List (Nat × Nat))
    (pv : Option String) (qs : List FilterRecipe) (r : FilterRecipe) :
    r ∈ filter_is_favorited auth rows qs pv ↔
      r ∈ qs ∧ membershipPred auth rows pv r := by
  cases pv with
  | none => simp [filter_is_favorited, membershipPred]
  | some v =>
    simp only [filter_is_favorited]
    by_cases hv : v = ""
    · rw [if_pos hv]
      cases auth with
      | none => simp [membershipPred]
      | some u => simp [membershipPred, hv]
    · rw [if_neg hv]
      cases auth with
      | none => simp [membershipPred]
      | some u =>
        rw [List.mem_filter]
        simp [membershipPred, hv]

/-- Claim C9: the four filter predicates combine conjunctively — a
recipe is in the filtered result exactly when it is in the base queryset
and satisfies the author, tags, favorited and in-cart predicates — and
for an anonymous requester, supplying the favorited / in-cart
parameters yields the same result as omitting them. -/
theorem recipe_filter_conjunctive (recipes : List FilterRecipe)
    (favs carts : List (Nat × Nat)) (auth : Option Nat) (p : FilterParams) :
    (∀ r, r ∈ recipeFilter recipes favs carts auth p ↔
      (r ∈ recipes ∧ authorPred p.author r ∧ tagsPred p.tags r ∧
        membershipPred auth favs p.is_favorited r ∧
        membershipPred auth carts p.is_in_shopping_cart r)) ∧
    (auth = none →
      recipeFilter recipes favs carts auth p =
        recipeFilter recipes favs carts auth
          { p with is_favorited := none, is_in_shopping_cart := none }) := by
  constructor
  · intro r
    rw [recipeFilter, filter_cart_eq_fav, mem_filter_membership,
      mem_filter_membership, mem_filter_tags, mem_filter_author]
    tauto
  · intro ha
    subst ha
    show filter_is_in_shopping_cart none carts
        (filter_is_favorited none favs
          (filter_tags (filter_author recipes p.author) p.tags)
          p.is_favorited)
        p.is_in_shopping_cart =
      filter_is_in_shopping_cart none carts
        (filter_is_favorited none favs
          (filter_tags (filter_author recipes p.author) p.tags) none)
        none
    simp only [filter_cart_eq_fav, filter_is_favorited_anon]

/-- Witness for C9: recipe 1 by author 10 with tag slug "x" passes a
filter asking for that author, that slug and favorited-by-user-5, and an
anonymous request with membership parameters equals the one without. -/
theorem recipe_filter_conjunctive_witness :
    (⟨1, 10, ["x"]⟩ : FilterRecipe) ∈
      recipeFilter [⟨1, 10, ["x"]⟩] [(5, 1)] [] (some 5)
        ⟨some 10, ["x"], some "1", none⟩ ∧
    recipeFilter [⟨1, 10, ["x"]⟩] [(5, 1)] [] none
        ⟨some 10, ["x"], some "1", some "1"⟩ =
      recipeFilter [⟨1, 10, ["x"]⟩] [(5, 1)] [] none
        ⟨some 10, ["x"], none, none⟩ := by
  constructor
  · exact ((recipe_filter_conjunctive [⟨1, 10, ["x"]⟩] [(5, 1)] [] (some 5)
      ⟨some 10, ["x"], some "1", none⟩).1 ⟨1, 10, ["x"]⟩).mpr
      ⟨by decide, rfl, Or.inr (by decide), Or.inr (by decide), trivial⟩
  · exact (recipe_filter_conjunctive [⟨1, 10, ["x"]⟩] [(5, 1)] [] none
      ⟨some 10, ["x"], some "1", some "1"⟩).2 rfl

end Foodgram
